import Mathlib

/-!
Verification of the prompt-debugger extension (`src/index.js`).

The development shallowly embeds the two components with actual logic:

* the sanitizer `cleanObject` (src/index.js lines 44-87), modelled over a
  tree type `JSVal` of JavaScript runtime values;
* the structured reporter `logPromptStruct` (lines 93-177) together with the
  `CHAT_COMPLETION_PROMPT_READY` listener (lines 183-199), modelled over a
  heap of possibly-cyclic JavaScript values (`JSHeap`), since the
  `JSON.parse(JSON.stringify(...))` deep-copy step can fail on cyclic input.

Console output is modelled as a list of events (`ConsoleEv`); the `%c...`
styling arguments of `console.group`/`console.log` are cosmetic and dropped
from the labels.
-/

/-- A JavaScript runtime value as a finite tree: `null`, `undefined`,
booleans, numbers, strings, arrays, and plain objects (field lists in
insertion order, as iterated by `for (const key in obj)`). -/
inductive JSVal where
  | null
  | undefined
  | bool (b : Bool)
  | num (n : Int)
  | str (s : String)
  | arr (elems : List JSVal)
  | obj (fields : List (String × JSVal))
  deriving Repr

/-- `typeof v === 'object'` for a non-`null` value: true exactly for arrays
and plain objects. (`null` is always tested separately first in the source.) -/
def isObjType : JSVal → Bool
  | .arr _ => true
  | .obj _ => true
  | _ => false

/-- `Array.isArray(v)`. -/
def isArrB : JSVal → Bool
  | .arr _ => true
  | _ => false

/-- `v.length` for an array (`0` for anything else; only applied to arrays
in the source). -/
def arrLen : JSVal → Nat
  | .arr l => l.length
  | _ => 0

/-- `Object.keys(v).length`: number of own enumerable keys — indices for an
array, field names for an object, character indices for a string, and none
for other primitives. -/
def keysLength : JSVal → Nat
  | .arr l => l.length
  | .obj fs => fs.length
  | .str s => s.length
  | _ => 0

/-- `v === ''` (strict equality: only the empty string qualifies). -/
def isEmptyStr : JSVal → Bool
  | .str s => s.isEmpty
  | _ => false

/-- `v === null || v === undefined`. -/
def isNullOrUndefined : JSVal → Bool
  | .null => true
  | .undefined => true
  | _ => false

mutual
/-- `cleanObject(obj)` from src/index.js lines 44-87. The flag `f` is the
value of `extension_settings[extensionName].filterOutEmptyFields`, read
(unchanged) by every recursive call. -/
def cleanObject (f : Bool) (v : JSVal) : JSVal :=
  if f = false then v
  else match v with
    | .null => .null
    | .undefined => .undefined
    | .arr items => .arr (cleanItems f items)
    | .obj fields => .obj (cleanFields f fields)
    | x => x

/-- The array branch of `cleanObject` (lines 54-67): `filter` over the
elements followed by `map`, fused into one pass (the two-pass original
computes the same list, element by element, because `cleanObject` is pure). -/
def cleanItems (f : Bool) : List JSVal → List JSVal
  | [] => []
  | item :: rest =>
    if isNullOrUndefined item then cleanItems f rest
    else if isObjType item && (keysLength (cleanObject f item) == 0) then cleanItems f rest
    else if isArrB item && (arrLen item == 0) then cleanItems f rest
    else (if isObjType item then cleanObject f item else item) :: cleanItems f rest

/-- The object branch of `cleanObject` (lines 70-84): the `for (const key
in obj)` loop building `newObj` in key order. -/
def cleanFields (f : Bool) : List (String × JSVal) → List (String × JSVal)
  | [] => []
  | (k, v) :: rest =>
    if isNullOrUndefined v then cleanFields f rest
    else if isObjType v then
      let cleaned := cleanObject f v
      if keysLength cleaned > 0 || (isArrB cleaned && arrLen cleaned > 0) then
        (k, cleaned) :: cleanFields f rest
      else cleanFields f rest
    else if isEmptyStr v then cleanFields f rest
    else (k, v) :: cleanFields f rest
end

/-- State-passing embedding of one call `cleanObject(obj)`: the pair is
(return value, value of the argument after the call).  The source only ever
reads `obj` — it builds fresh `newArray`/`newObj` values via `filter`,
`map` and `newObj[key] = ...` and contains no assignment to `obj` or to any
of its members — so the post-call value of the argument is the argument. -/
def cleanObjectCall (f : Bool) (arg : JSVal) : JSVal × JSVal :=
  (cleanObject f arg, arg)

/-- The concrete sequence `[1, null, "", {}, [], "ok"]` from the spec's
array-element-filtering example. -/
def exampleArray : JSVal :=
  .arr [.num 1, .null, .str "", .obj [], .arr [], .str "ok"]

/-- An atomic (non-container) JavaScript value. -/
inductive JSAtomV where
  | null
  | undefined
  | bool (b : Bool)
  | num (n : Int)
  | str (s : String)
  deriving Repr, DecidableEq

/-- A reference to a JavaScript runtime value in a heap: either an atom or
an index into the heap's object or array store.  Containers live behind
references so that cyclic structures — which `JSON.stringify` rejects —
are representable. -/
inductive JSNodeRef where
  | atom (a : JSAtomV)
  | obj (i : Nat)
  | arr (i : Nat)
  deriving Repr, DecidableEq

/-- A heap of JavaScript container values: `objs i` is the field list of
object `i`, `arrs i` the element list of array `i`.  Edges may point
anywhere, so self-referencing (cyclic) structures are expressible. -/
structure JSHeap where
  objs : List (List (String × JSNodeRef))
  arrs : List (List JSNodeRef)
  deriving Repr

/-- The message of the `TypeError` thrown by `JSON.stringify` on a cyclic
structure. -/
def circularMsg : String := "Converting circular structure to JSON"

/-- Serialize the fields of an object through `g` (one `JSON.stringify`
step per member).  A member whose value serializes to `undefined` is
omitted from the output, as `JSON.stringify` does; the first member that
throws aborts the whole serialization. -/
def copyObjMembers (g : JSNodeRef → Except String (Option JSVal)) :
    List (String × JSNodeRef) → Except String (List (String × JSVal))
  | [] => .ok []
  | (k, r) :: rest =>
    match g r with
    | .error e => .error e
    | .ok none => copyObjMembers g rest
    | .ok (some v) =>
      match copyObjMembers g rest with
      | .error e => .error e
      | .ok vs => .ok ((k, v) :: vs)

/-- Serialize the elements of an array through `g`.  An element that
serializes to `undefined` becomes `null`, as `JSON.stringify` does. -/
def copyArrMembers (g : JSNodeRef → Except String (Option JSVal)) :
    List JSNodeRef → Except String (List JSVal)
  | [] => .ok []
  | r :: rest =>
    match g r with
    | .error e => .error e
    | .ok w =>
      match copyArrMembers g rest with
      | .error e => .error e
      | .ok vs => .ok ((match w with | some v => v | none => JSVal.null) :: vs)

/-- One step of `JSON.stringify` followed by `JSON.parse`, on the value
graph: atoms round-trip to themselves (`undefined` serializes to nothing,
reported as `none`); a container already on the ancestor chain `anc` is the
cycle `JSON.stringify` detects and throws on.  `fuel` only bounds the
recursion depth; since every recursive step extends `anc` with a node not
yet on it, a start fuel exceeding the number of heap nodes can never run
out. -/
def copyNode (h : JSHeap) : Nat → List (Bool × Nat) → JSNodeRef → Except String (Option JSVal)
  | _, _, .atom .null => .ok (some .null)
  | _, _, .atom .undefined => .ok none
  | _, _, .atom (.bool b) => .ok (some (.bool b))
  | _, _, .atom (.num n) => .ok (some (.num n))
  | _, _, .atom (.str s) => .ok (some (.str s))
  | 0, _, _ => .error "out of fuel"
  | Nat.succ fuel, anc, .obj i =>
    if (true, i) ∈ anc then .error circularMsg
    else
      match copyObjMembers (copyNode h fuel ((true, i) :: anc)) (h.objs.getD i []) with
      | .error e => .error e
      | .ok fs => .ok (some (.obj fs))
  | Nat.succ fuel, anc, .arr i =>
    if (false, i) ∈ anc then .error circularMsg
    else
      match copyArrMembers (copyNode h fuel ((false, i) :: anc)) (h.arrs.getD i []) with
      | .error e => .error e
      | .ok vs => .ok (some (.arr vs))

/-- `JSON.parse(JSON.stringify(x))` (src/index.js line 100): deep copy via
a full serialization round trip.  A cyclic structure makes `stringify`
throw; a top-level value that serializes to nothing (e.g. `undefined`)
makes `JSON.parse` throw a `SyntaxError`. -/
def deepCopyJson (h : JSHeap) (r : JSNodeRef) : Except String JSVal :=
  match copyNode h (h.objs.length + h.arrs.length + 1) [] r with
  | .error e => .error e
  | .ok none => .error "SyntaxError: undefined is not valid JSON"
  | .ok (some v) => .ok v

/-- One console call made by the extension.  Styling arguments (`%c...`,
colors) are cosmetic and dropped from the labels. -/
inductive ConsoleEv where
  | group (label : String)
  | groupEnd
  | logv (label : String) (v : JSVal)
  | logs (line : String)
  | warn (line : String)
  | error (label : String) (e : String)
  deriving Repr

/-- JavaScript truthiness of a tree value. -/
def truthy : JSVal → Bool
  | .null => false
  | .undefined => false
  | .bool b => b
  | .num n => n != 0
  | .str s => !s.isEmpty
  | .arr _ => true
  | .obj _ => true

/-- First-match association lookup, the single binding a JavaScript object
has for a key. -/
def lookupField : List (String × JSVal) → String → Option JSVal
  | [], _ => none
  | (k, v) :: rest, key => if k = key then some v else lookupField rest key

/-- Property access `v[k]`: throws a `TypeError` on `null`/`undefined`;
yields the field (or `undefined`) on an object; yields elements, `length`
or `undefined` on arrays and strings; `undefined` on other primitives. -/
def getProp (v : JSVal) (k : String) : Except String JSVal :=
  match v with
  | .null => .error "TypeError: cannot read properties of null"
  | .undefined => .error "TypeError: cannot read properties of undefined"
  | .obj fs => .ok ((lookupField fs k).getD .undefined)
  | .arr l =>
    .ok (match k.toNat? with
      | some i => (l.get? i).getD .undefined
      | none => if k = "length" then .num l.length else .undefined)
  | .str s =>
    .ok (match k.toNat? with
      | some i =>
        (match s.data.get? i with
          | some c => .str (String.mk [c])
          | none => .undefined)
      | none => if k = "length" then .num s.length else .undefined)
  | _ => .ok .undefined

/-- Property access through a guard that already established the receiver
is not `null`/`undefined` (so `getProp` cannot throw). -/
def getPropD (v : JSVal) (k : String) : JSVal :=
  match getProp v k with
  | .ok w => w
  | .error _ => .undefined

/-- The own enumerable keys a `for (const key in v)` loop visits, in
order: field names of an object, index strings of an array or string. -/
def keysOf : JSVal → List String
  | .obj fs => fs.map Prod.fst
  | .arr l => (List.range l.length).map toString
  | .str s => (List.range s.length).map toString
  | _ => []

/-- Sequencing of console emission that can abort: if `a` already aborted,
`b` never runs; otherwise `b`'s output is appended and its abort state
kept.  Models straight-line statements inside the reporter's `try`. -/
def evSeq (a : List ConsoleEv × Option String)
    (b : Unit → List ConsoleEv × Option String) : List ConsoleEv × Option String :=
  match a with
  | (evs, some e) => (evs, some e)
  | (evs, none) =>
    match b () with
    | (evs2, st) => (evs ++ evs2, st)

/-- The three `console.log` lines rendered for a prompt section (its
`text`, `additional_chat_log` and `extension` fields; lines 117-119 and
their twins).  Aborts if a property access throws. -/
def logSectionLines (sec : JSVal) : List ConsoleEv × Option String :=
  match getProp sec "text" with
  | .error e => ([], some e)
  | .ok t =>
    match getProp sec "additional_chat_log" with
    | .error e => ([.logv "Text Components:" t], some e)
    | .ok acl =>
      match getProp sec "extension" with
      | .error e => ([.logv "Text Components:" t, .logv "Additional Chat Log:" acl], some e)
      | .ok ext =>
        ([.logv "Text Components:" t, .logv "Additional Chat Log:" acl,
          .logv "Extensions:" ext], none)

/-- A simple verbose sub-group (lines 116-121 for `char_prompt` and the
twin blocks for `user_prompt` / `world_prompt`): emitted when the section
property is truthy. -/
def sectionBlock (label : String) (cleaned : JSVal) (key : String) :
    List ConsoleEv × Option String :=
  match getProp cleaned key with
  | .error e => ([], some e)
  | .ok sec =>
    if truthy sec then
      match logSectionLines sec with
      | (evs, some e) => (ConsoleEv.group label :: evs, some e)
      | (evs, none) => (ConsoleEv.group label :: (evs ++ [ConsoleEv.groupEnd]), none)
    else ([], none)

/-- The per-id sub-groups of a keyed verbose block (the `for (const charId
in ...)` / `for (const pluginId in ...)` loops, lines 142-149 and 155-162). -/
def keyedEntryBlocks (pfx : String) (container : JSVal) :
    List String → List ConsoleEv × Option String
  | [] => ([], none)
  | id :: rest =>
    match logSectionLines (getPropD container id) with
    | (evs, some e) => (ConsoleEv.group (pfx ++ id) :: evs, some e)
    | (evs, none) =>
      match keyedEntryBlocks pfx container rest with
      | (evs2, st) =>
        (ConsoleEv.group (pfx ++ id) :: (evs ++ [ConsoleEv.groupEnd] ++ evs2), st)

/-- A keyed verbose block (`other_chars_prompt`, lines 140-151;
`plugin_prompts`, lines 153-164): guarded by
`Object.keys(cleaned[key] || {}).length > 0`, then one sub-group per key
of the container. -/
def keyedBlock (outerLabel pfx : String) (cleaned : JSVal) (key : String) :
    List ConsoleEv × Option String :=
  match getProp cleaned key with
  | .error e => ([], some e)
  | .ok m =>
    if keysLength (if truthy m then m else JSVal.obj []) > 0 then
      match keyedEntryBlocks pfx m (keysOf m) with
      | (evs, some e) => (ConsoleEv.group outerLabel :: evs, some e)
      | (evs, none) => (ConsoleEv.group outerLabel :: (evs ++ [ConsoleEv.groupEnd]), none)
    else ([], none)

/-- The `chat_log` verbose block (lines 166-170). -/
def chatLogBlock (cleaned : JSVal) : List ConsoleEv × Option String :=
  match getProp cleaned "chat_log" with
  | .error e => ([], some e)
  | .ok cl =>
    if truthy cl then
      ([ConsoleEv.group "Chat Log", ConsoleEv.logv "Entries:" cl, ConsoleEv.groupEnd], none)
    else ([], none)

/-- The whole verbose section breakdown (lines 114-171), in source order:
character, user, world, other characters, plugins, chat log. -/
def renderVerbose (cleaned : JSVal) : List ConsoleEv × Option String :=
  evSeq (sectionBlock "Character Prompt" cleaned "char_prompt") (fun _ =>
  evSeq (sectionBlock "User Prompt" cleaned "user_prompt") (fun _ =>
  evSeq (sectionBlock "World Prompt" cleaned "world_prompt") (fun _ =>
  evSeq (keyedBlock "Other Characters Prompts" "Character ID: " cleaned "other_chars_prompt")
    (fun _ =>
  evSeq (keyedBlock "Plugin Prompts" "Plugin ID: " cleaned "plugin_prompts") (fun _ =>
  chatLogBlock cleaned)))))

/-- The extension settings object (`extension_settings[extensionName]`);
the two reserved fields `logToFile` / `logFilePath` carry no behavior and
are omitted. -/
structure Settings where
  enabled : Bool
  verboseLogging : Bool
  filterOutEmptyFields : Bool

/-- The label `console.error` is called with at the reporter's `catch`
(line 175). -/
def errLabel : String := "Error in Prompt Debugger plugin:"

/-- `logPromptStruct(promptStruct, chatId)` (lines 93-177) as the list of
console events one invocation emits.  `now` stands for the
`new Date().toISOString()` read.  The `try`/`catch` is modelled by the
`Except`/abort plumbing: a deep-copy failure is caught before any output,
and an exception inside the verbose block (a `TypeError` on a degenerate
cleaned value) leaves the events already emitted followed by the
error line. -/
def logPromptStruct (s : Settings) (now chatId : String) (h : JSHeap) (r : JSNodeRef) :
    List ConsoleEv :=
  if s.enabled = false then []
  else
    match deepCopyJson h r with
    | .error e => [ConsoleEv.error errLabel e]
    | .ok copy =>
      let cleaned := cleanObject s.filterOutEmptyFields copy
      let headEvs : List ConsoleEv :=
        [ConsoleEv.group ("Prompt Structure (Chat ID: " ++ chatId ++ ")"),
         ConsoleEv.logs ("Timestamp: " ++ now),
         ConsoleEv.logv "Full Prompt Structure:" cleaned]
      if s.verboseLogging then
        match renderVerbose cleaned with
        | (evs, none) => headEvs ++ evs ++ [ConsoleEv.groupEnd]
        | (evs, some e) => headEvs ++ evs ++ [ConsoleEv.error errLabel e]
      else headEvs ++ [ConsoleEv.groupEnd]

/-- The payload of one `CHAT_COMPLETION_PROMPT_READY` event: the heap the
prompt structure lives in, the `prompt_struct` field (the reference
`undefined` when the field is absent) and the `chat_id` field. -/
structure Payload where
  heap : JSHeap
  prompt_struct : JSNodeRef
  chat_id : String

/-- JavaScript truthiness of a heap reference (containers are always
truthy). -/
def truthyRef : JSNodeRef → Bool
  | .atom .null => false
  | .atom .undefined => false
  | .atom (.bool b) => b
  | .atom (.num n) => n != 0
  | .atom (.str s) => !s.isEmpty
  | .obj _ => true
  | .arr _ => true

/-- The `CHAT_COMPLETION_PROMPT_READY` listener (lines 185-199): bail out
when disabled, log-and-report when `prompt_struct` is truthy, warn
otherwise.  Nothing inside its inner `try` can throw (the reporter
swallows its own failures), so the listener's `catch` is unreachable. -/
def promptReadyListener (s : Settings) (now : String) (p : Payload) : List ConsoleEv :=
  if s.enabled = false then []
  else if truthyRef p.prompt_struct then
    ConsoleEv.logs ("Prompt Debugger: Captured prompt for chat ID " ++ p.chat_id)
      :: logPromptStruct s now p.chat_id p.heap p.prompt_struct
  else [ConsoleEv.warn "Prompt Debugger: No prompt structure available in the payload"]

/-- A run of consecutive `CHAT_COMPLETION_PROMPT_READY` deliveries: the
pipeline is stateless, each event's output is just appended. -/
def runEvents (s : Settings) (now : String) : List Payload → List ConsoleEv
  | [] => []
  | p :: rest => promptReadyListener s now p ++ runEvents s now rest

/-- The label of a `console.group` event, if any. -/
def groupLabelOf : ConsoleEv → Option String
  | ConsoleEv.group l => some l
  | _ => none

/-- The labels of the `console.group` calls in an emission, in order: one
per (sub-)group opened. -/
def groupLabels (evs : List ConsoleEv) : List String :=
  evs.filterMap groupLabelOf

/-- Spec-side reading of C9 for a simple section: the sub-group label is
emitted exactly when the section is present in the sanitized structure
with a non-empty value. -/
def specSectionLabels (cf : List (String × JSVal)) (key lbl : String) : List String :=
  match lookupField cf key with
  | some v => if 0 < keysLength v then [lbl] else []
  | none => []

/-- Spec-side reading of C9 for a keyed section (`other_chars_prompt`,
`plugin_prompts`): the outer sub-group label plus one per-id label is
emitted exactly when the section is present in the sanitized structure
with a non-empty value, the ids being the keys present after
sanitization. -/
def specKeyedLabels (cf : List (String × JSVal)) (key outerLabel pfx : String) : List String :=
  match lookupField cf key with
  | some v => if 0 < keysLength v then outerLabel :: (keysOf v).map (fun id => pfx ++ id) else []
  | none => []

/-- C1 (counterexample): cleaning `[1, null, "", {}, [], "ok"]` with
filtering enabled does NOT return `[1, "ok"]` — the array branch of
`cleanObject` (lines 54-67) never tests elements against the empty string
(only the object branch, line 80, does), so `""` survives as an element. -/
theorem cleanObject_example_array_not_spec :
    cleanObject true exampleArray ≠ JSVal.arr [.num 1, .str "ok"] := by
  intro h
  rw [show cleanObject true exampleArray
        = JSVal.arr [.num 1, .str "", .str "ok"] from rfl] at h
  simp at h

/-- C1 (amended): cleaning `[1, null, "", {}, [], "ok"]` with filtering
enabled returns `[1, "", "ok"]`: `null`, the empty object and the empty
array are removed, but the empty-string element is retained (empty strings
are only dropped as values of keyed containers, never as sequence
elements). -/
theorem cleanObject_example_array :
    cleanObject true exampleArray = JSVal.arr [.num 1, .str "", .str "ok"] := rfl

/-- C3: with the filter flag disabled the sanitizer returns its input
unchanged (line 45-47 of the source returns `obj` before any traversal). -/
theorem cleanObject_disabled_identity (v : JSVal) : cleanObject false v = v := by
  cases v <;> rfl

/-- C4: the sanitizer never mutates its argument: in the state-passing
embedding of a call, the value of the argument after `cleanObject(x)`
returns is `x` itself (the source performs no assignment to its argument). -/
theorem cleanObject_no_mutation (f : Bool) (x : JSVal) :
    (cleanObjectCall f x).2 = x := rfl

/-- C5: in a keyed container only empty strings, null/undefined and empty
containers are dropped; the falsy scalars `0` and `false` survive:
`clean({a: "", b: 0, c: false, d: null}, true) = {b: 0, c: false}`. -/
theorem cleanObject_keeps_falsy_scalars :
    cleanObject true (.obj [("a", .str ""), ("b", .num 0), ("c", .bool false), ("d", .null)])
      = JSVal.obj [("b", .num 0), ("c", .bool false)] := rfl

/-- C6: subtrees that become empty after cleaning are dropped rather than
kept empty, recursively: `clean({x: {y: []}, z: [{}]}, true) = {}`. -/
theorem cleanObject_prunes_nested_empty :
    cleanObject true (.obj [("x", .obj [("y", .arr [])]), ("z", .arr [.obj []])])
      = JSVal.obj [] := rfl

/-- C10: the sanitizer preserves the top-level kind of its input when
filtering is enabled: arrays map to arrays, objects to objects, and
`null`/`undefined`/scalars are returned unchanged. -/
theorem cleanObject_preserves_kind (x : JSVal) :
    ((∃ l, x = JSVal.arr l) → ∃ l2, cleanObject true x = JSVal.arr l2) ∧
    ((∃ fs, x = JSVal.obj fs) → ∃ fs2, cleanObject true x = JSVal.obj fs2) ∧
    (isObjType x = false → cleanObject true x = x) := by
  refine ⟨?_, ?_, ?_⟩
  · rintro ⟨l, rfl⟩; exact ⟨cleanItems true l, rfl⟩
  · rintro ⟨fs, rfl⟩; exact ⟨cleanFields true fs, rfl⟩
  · intro h; cases x <;> first | rfl | simp [isObjType] at h

/-- C10 witness: the kind-preservation theorem applied at an array, an
object and a scalar. -/
theorem cleanObject_preserves_kind_witness :
    (∃ l2, cleanObject true (JSVal.arr [JSVal.null]) = JSVal.arr l2) ∧
    (∃ fs2, cleanObject true (JSVal.obj [("a", JSVal.num 3)]) = JSVal.obj fs2) ∧
    cleanObject true (JSVal.num 7) = JSVal.num 7 :=
  ⟨(cleanObject_preserves_kind (JSVal.arr [JSVal.null])).1 ⟨_, rfl⟩,
   (cleanObject_preserves_kind (JSVal.obj [("a", JSVal.num 3)])).2.1 ⟨_, rfl⟩,
   (cleanObject_preserves_kind (JSVal.num 7)).2.2 rfl⟩

theorem cleanObject_arr_def (l : List JSVal) :
    cleanObject true (JSVal.arr l) = JSVal.arr (cleanItems true l) := rfl

theorem cleanObject_obj_def (fs : List (String × JSVal)) :
    cleanObject true (JSVal.obj fs) = JSVal.obj (cleanFields true fs) := rfl

theorem cleanItems_cons_drop1 (e : JSVal) (l : List JSVal)
    (h1 : isNullOrUndefined e = true) :
    cleanItems true (e :: l) = cleanItems true l := by
  simp [cleanItems, h1]

theorem cleanItems_cons_drop2 (e : JSVal) (l : List JSVal)
    (h1 : isNullOrUndefined e = false)
    (h2 : (isObjType e && (keysLength (cleanObject true e) == 0)) = true) :
    cleanItems true (e :: l) = cleanItems true l := by
  simp [cleanItems, h1, h2]

theorem cleanItems_cons_drop3 (e : JSVal) (l : List JSVal)
    (h1 : isNullOrUndefined e = false)
    (h2 : (isObjType e && (keysLength (cleanObject true e) == 0)) = false)
    (h3 : (isArrB e && (arrLen e == 0)) = true) :
    cleanItems true (e :: l) = cleanItems true l := by
  simp [cleanItems, h1, h2, h3]

theorem cleanItems_cons_keep (e : JSVal) (l : List JSVal)
    (h1 : isNullOrUndefined e = false)
    (h2 : (isObjType e && (keysLength (cleanObject true e) == 0)) = false)
    (h3 : (isArrB e && (arrLen e == 0)) = false) :
    cleanItems true (e :: l)
      = (if isObjType e then cleanObject true e else e) :: cleanItems true l := by
  simp [cleanItems, h1, h2, h3]

theorem cleanFields_cons_drop_null (k : String) (v : JSVal) (l : List (String × JSVal))
    (h1 : isNullOrUndefined v = true) :
    cleanFields true ((k, v) :: l) = cleanFields true l := by
  simp [cleanFields, h1]

theorem cleanFields_cons_container (k : String) (v : JSVal) (l : List (String × JSVal))
    (h1 : isNullOrUndefined v = false) (h2 : isObjType v = true) :
    cleanFields true ((k, v) :: l)
      = (if keysLength (cleanObject true v) > 0
            || (isArrB (cleanObject true v) && arrLen (cleanObject true v) > 0)
         then (k, cleanObject true v) :: cleanFields true l
         else cleanFields true l) := by
  simp [cleanFields, h1, h2]

theorem cleanFields_cons_drop_empty_str (k : String) (v : JSVal) (l : List (String × JSVal))
    (h1 : isNullOrUndefined v = false) (h2 : isObjType v = false)
    (h3 : isEmptyStr v = true) :
    cleanFields true ((k, v) :: l) = cleanFields true l := by
  simp [cleanFields, h1, h2, h3]

theorem cleanFields_cons_keep_scalar (k : String) (v : JSVal) (l : List (String × JSVal))
    (h1 : isNullOrUndefined v = false) (h2 : isObjType v = false)
    (h3 : isEmptyStr v = false) :
    cleanFields true ((k, v) :: l) = (k, v) :: cleanFields true l := by
  simp [cleanFields, h1, h2, h3]

theorem isNullOrUndefined_of_objType (v : JSVal) (h : isObjType v = true) :
    isNullOrUndefined v = false := by
  cases v <;> simp_all [isObjType, isNullOrUndefined]

theorem isObjType_cleanObject (v : JSVal) (h : isObjType v = true) :
    isObjType (cleanObject true v) = true := by
  cases v <;> simp_all [isObjType, cleanObject_arr_def, cleanObject_obj_def]

theorem arrCond_false_of_keysLength_ne (e : JSVal) (h : keysLength e ≠ 0) :
    (isArrB e && (arrLen e == 0)) = false := by
  cases e <;> simp_all [keysLength, isArrB, arrLen]

theorem cleanFields_cons_keep_container (k : String) (v : JSVal) (l : List (String × JSVal))
    (h1 : isNullOrUndefined v = false) (h2 : isObjType v = true)
    (h3 : (keysLength (cleanObject true v) > 0
        || (isArrB (cleanObject true v) && arrLen (cleanObject true v) > 0)) = true) :
    cleanFields true ((k, v) :: l) = (k, cleanObject true v) :: cleanFields true l := by
  simp [cleanFields, h1, h2, h3]

theorem cleanFields_cons_drop_container (k : String) (v : JSVal) (l : List (String × JSVal))
    (h1 : isNullOrUndefined v = false) (h2 : isObjType v = true)
    (h3 : (keysLength (cleanObject true v) > 0
        || (isArrB (cleanObject true v) && arrLen (cleanObject true v) > 0)) = false) :
    cleanFields true ((k, v) :: l) = cleanFields true l := by
  simp [cleanFields, h1, h2, h3]

theorem objType_false_conds (e : JSVal) (h : isObjType e = false) :
    isArrB e = false := by
  cases e <;> simp_all [isObjType, isArrB]

/-- C2: the sanitizer is idempotent when filtering is enabled: a second
pass of `cleanObject` over an already-cleaned value removes nothing
further. -/
theorem cleanObject_idempotent (v : JSVal) :
    cleanObject true (cleanObject true v) = cleanObject true v := by
  refine cleanObject.induct true
    (fun w => cleanObject true (cleanObject true w) = cleanObject true w)
    (fun fs => cleanFields true (cleanFields true fs) = cleanFields true fs)
    (fun l => cleanItems true (cleanItems true l) = cleanItems true l)
    ?_ ?_ ?_ ?_ ?_ ?_ ?_ ?_ ?_ ?_ ?_ ?_ ?_ ?_ ?_ ?_ ?_ v
  · intro t h; simp at h
  · intro _; rfl
  · intro _; rfl
  · intro _ items ih
    rw [cleanObject_arr_def, cleanObject_arr_def, ih]
  · intro _ fields ih
    rw [cleanObject_obj_def, cleanObject_obj_def, ih]
  · intro _ x h1 h2 h3 h4
    cases x <;> first | rfl | exact absurd rfl (h3 _) | exact absurd rfl (h4 _)
  · rfl
  · intro item rest h ih
    rw [cleanItems_cons_drop1 item rest h]
    exact ih
  · intro item rest h1 h2 ih1 ih2
    rw [cleanItems_cons_drop2 item rest (by simpa using h1) h2]
    exact ih2
  · intro item rest h1 h2 h3 ih1 ih2
    rw [cleanItems_cons_drop3 item rest (by simpa using h1) (by simpa using h2) h3]
    exact ih2
  · intro item rest h1 h2 h3 ih1 ih2
    have h1' : isNullOrUndefined item = false := by simpa using h1
    have h2' : (isObjType item && (keysLength (cleanObject true item) == 0)) = false := by
      simpa using h2
    have h3' : (isArrB item && (arrLen item == 0)) = false := by simpa using h3
    rw [cleanItems_cons_keep item rest h1' h2' h3']
    by_cases ho : isObjType item = true
    · have hkeys : keysLength (cleanObject true item) ≠ 0 := by
        intro hk
        rw [ho, hk] at h2'
        simp at h2'
      have hobj2 : isObjType (cleanObject true item) = true := isObjType_cleanObject item ho
      have e1 : isNullOrUndefined (cleanObject true item) = false :=
        isNullOrUndefined_of_objType _ hobj2
      have e2 : (isObjType (cleanObject true item)
          && (keysLength (cleanObject true (cleanObject true item)) == 0)) = false := by
        rw [ih1, hobj2]
        simpa using hkeys
      have e3 : (isArrB (cleanObject true item) && (arrLen (cleanObject true item) == 0)) = false :=
        arrCond_false_of_keysLength_ne _ hkeys
      rw [if_pos ho, cleanItems_cons_keep _ _ e1 e2 e3, if_pos hobj2, ih1, ih2]
    · have ho' : isObjType item = false := by simpa using ho
      have e2 : (isObjType item && (keysLength (cleanObject true item) == 0)) = false := by
        rw [ho']; rfl
      have e3 : (isArrB item && (arrLen item == 0)) = false := by
        rw [objType_false_conds item ho']; rfl
      rw [if_neg ho, cleanItems_cons_keep item _ h1' e2 e3, if_neg ho, ih2]
  · rfl
  · intro k v rest h ih
    rw [cleanFields_cons_drop_null k v rest h]
    exact ih
  · intro k v rest h1 h2 cleaned hc ih1 ih2
    have h1' : isNullOrUndefined v = false := by simpa using h1
    have hc' : (keysLength (cleanObject true v) > 0
        || (isArrB (cleanObject true v) && arrLen (cleanObject true v) > 0)) = true := by
      rw [show cleaned = cleanObject true v from rfl] at hc
      simpa using hc
    rw [cleanFields_cons_keep_container k v rest h1' h2 hc']
    have hobj2 : isObjType (cleanObject true v) = true := isObjType_cleanObject v h2
    have e1 : isNullOrUndefined (cleanObject true v) = false := isNullOrUndefined_of_objType _ hobj2
    have hc2 : (keysLength (cleanObject true (cleanObject true v)) > 0
        || (isArrB (cleanObject true (cleanObject true v))
            && arrLen (cleanObject true (cleanObject true v)) > 0)) = true := by
      rw [ih1]; exact hc'
    rw [cleanFields_cons_keep_container k _ _ e1 hobj2 hc2, ih1, ih2]
  · intro k v rest h1 h2 cleaned hc ih1 ih2
    have h1' : isNullOrUndefined v = false := by simpa using h1
    have hc' : (keysLength (cleanObject true v) > 0
        || (isArrB (cleanObject true v) && arrLen (cleanObject true v) > 0)) = false := by
      rw [show cleaned = cleanObject true v from rfl] at hc
      simpa using hc
    rw [cleanFields_cons_drop_container k v rest h1' h2 hc']
    exact ih2
  · intro k v rest h1 h2 h3 ih
    rw [cleanFields_cons_drop_empty_str k v rest (by simpa using h1) (by simpa using h2) h3]
    exact ih
  · intro k v rest h1 h2 h3 ih
    have h1' : isNullOrUndefined v = false := by simpa using h1
    have h2' : isObjType v = false := by simpa using h2
    have h3' : isEmptyStr v = false := by simpa using h3
    rw [cleanFields_cons_keep_scalar k v rest h1' h2' h3',
        cleanFields_cons_keep_scalar k v _ h1' h2' h3', ih]

example : deepCopyJson ⟨[[("self", JSNodeRef.obj 0)]], []⟩ (JSNodeRef.obj 0)
    = Except.error circularMsg := rfl

example : deepCopyJson ⟨[[("a", JSNodeRef.atom (JSAtomV.num 2))]], []⟩ (JSNodeRef.obj 0)
    = Except.ok (JSVal.obj [("a", JSVal.num 2)]) := rfl

/-- C7: the reporter never propagates an exception.  When the deep copy of
the input fails (e.g. on a cyclic self-reference), `logPromptStruct` emits
exactly one error-level line carrying the exception and no report body at
all; any invocation whose deep copy succeeds emits the normal report
(shown for non-verbose mode, and for verbose mode whenever the verbose
rendering does not itself throw); and a run of deliveries is stateless, so
a failing invocation has no effect on a subsequent valid one. -/
theorem logPromptStruct_catches_deep_copy_failure
    (s : Settings) (now chatId : String) (h : JSHeap) (r : JSNodeRef) (e : String)
    (hen : s.enabled = true) (hfail : deepCopyJson h r = Except.error e) :
    logPromptStruct s now chatId h r = [ConsoleEv.error errLabel e] ∧
    (∀ (now2 chatId2 : String) (h2 : JSHeap) (r2 : JSNodeRef) (c : JSVal),
      deepCopyJson h2 r2 = Except.ok c →
      (s.verboseLogging = false →
        logPromptStruct s now2 chatId2 h2 r2 =
          [ConsoleEv.group ("Prompt Structure (Chat ID: " ++ chatId2 ++ ")"),
           ConsoleEv.logs ("Timestamp: " ++ now2),
           ConsoleEv.logv "Full Prompt Structure:" (cleanObject s.filterOutEmptyFields c),
           ConsoleEv.groupEnd]) ∧
      (s.verboseLogging = true →
        (renderVerbose (cleanObject s.filterOutEmptyFields c)).2 = none →
        logPromptStruct s now2 chatId2 h2 r2 =
          [ConsoleEv.group ("Prompt Structure (Chat ID: " ++ chatId2 ++ ")"),
           ConsoleEv.logs ("Timestamp: " ++ now2),
           ConsoleEv.logv "Full Prompt Structure:" (cleanObject s.filterOutEmptyFields c)]
          ++ (renderVerbose (cleanObject s.filterOutEmptyFields c)).1
          ++ [ConsoleEv.groupEnd])) ∧
    (∀ ps qs : List Payload,
      runEvents s now (ps ++ qs) = runEvents s now ps ++ runEvents s now qs) := by
  refine ⟨?_, ?_, ?_⟩
  · simp [logPromptStruct, hen, hfail]
  · intro now2 chatId2 h2 r2 c hok
    constructor
    · intro hverb
      simp [logPromptStruct, hen, hok, hverb]
    · intro hverb hnoabort
      rcases hrv : renderVerbose (cleanObject s.filterOutEmptyFields c) with ⟨evs, st⟩
      rw [hrv] at hnoabort
      simp at hnoabort
      subst hnoabort
      simp [logPromptStruct, hen, hok, hverb, hrv]
  · intro ps qs
    induction ps with
    | nil => simp [runEvents]
    | cons p rest ih => simp [runEvents, ih]

/-- C7 witness: a cyclic one-object heap makes the deep copy fail with the
circular-structure `TypeError`; the invocation emits exactly the error
line, and a subsequent invocation on a valid (scalar) structure emits the
full normal report. -/
theorem logPromptStruct_catches_deep_copy_failure_witness :
    logPromptStruct ⟨true, false, true⟩ "T" "C" ⟨[[("self", JSNodeRef.obj 0)]], []⟩
        (JSNodeRef.obj 0)
      = [ConsoleEv.error errLabel circularMsg] ∧
    logPromptStruct ⟨true, false, true⟩ "T" "C" ⟨[[("self", JSNodeRef.obj 0)]], []⟩
        (JSNodeRef.atom (JSAtomV.num 1))
      = [ConsoleEv.group ("Prompt Structure (Chat ID: " ++ "C" ++ ")"),
         ConsoleEv.logs ("Timestamp: " ++ "T"),
         ConsoleEv.logv "Full Prompt Structure:" (cleanObject true (JSVal.num 1)),
         ConsoleEv.groupEnd] := by
  have H := logPromptStruct_catches_deep_copy_failure ⟨true, false, true⟩ "T" "C"
    ⟨[[("self", JSNodeRef.obj 0)]], []⟩ (JSNodeRef.obj 0) circularMsg rfl rfl
  exact ⟨H.1, (H.2.1 "T" "C" ⟨[[("self", JSNodeRef.obj 0)]], []⟩
    (JSNodeRef.atom (JSAtomV.num 1)) (JSVal.num 1) rfl).1 rfl⟩

/-- C8: when the event payload's `prompt_struct` field is absent (the
destructured binding is `undefined`), the enabled listener emits exactly
one warning-level line, raises no exception, and emits no report body. -/
theorem missing_prompt_struct_warns (s : Settings) (now : String) (p : Payload)
    (hen : s.enabled = true) (hmiss : p.prompt_struct = JSNodeRef.atom JSAtomV.undefined) :
    promptReadyListener s now p
      = [ConsoleEv.warn "Prompt Debugger: No prompt structure available in the payload"] := by
  simp [promptReadyListener, hen, hmiss, truthyRef]

/-- C8 witness: the missing-payload theorem applied to a concrete payload
with no `prompt_struct`. -/
theorem missing_prompt_struct_warns_witness :
    promptReadyListener ⟨true, true, true⟩ "T" ⟨⟨[], []⟩, JSNodeRef.atom JSAtomV.undefined, "C"⟩
      = [ConsoleEv.warn "Prompt Debugger: No prompt structure available in the payload"] :=
  missing_prompt_struct_warns ⟨true, true, true⟩ "T"
    ⟨⟨[], []⟩, JSNodeRef.atom JSAtomV.undefined, "C"⟩ rfl rfl

theorem groupLabels_append (a b : List ConsoleEv) :
    groupLabels (a ++ b) = groupLabels a ++ groupLabels b := by
  simp [groupLabels]

theorem lookupField_mem (l : List (String × JSVal)) (k : String) (v : JSVal)
    (h : lookupField l k = some v) : (k, v) ∈ l := by
  induction l with
  | nil => simp [lookupField] at h
  | cons p rest ih =>
    rcases p with ⟨k0, v0⟩
    by_cases he : k0 = k
    · subst he
      simp [lookupField] at h
      subst h
      exact List.mem_cons_self _ _
    · rw [lookupField, if_neg he] at h
      exact List.mem_cons_of_mem _ (ih h)

theorem lookupField_of_mem_keys (l : List (String × JSVal)) (k : String)
    (h : k ∈ l.map Prod.fst) : ∃ v, lookupField l k = some v := by
  induction l with
  | nil => simp at h
  | cons p rest ih =>
    rcases p with ⟨k0, v0⟩
    by_cases he : k0 = k
    · subst he
      exact ⟨v0, by simp [lookupField]⟩
    · rw [List.map_cons] at h
      rcases List.mem_cons.mp h with h | h
      · exact absurd h.symm he
      · rcases ih h with ⟨v, hv⟩
        exact ⟨v, by rw [lookupField, if_neg he]; exact hv⟩

/-- Membership analysis of the cleaned field list: a surviving field is
either a cleaned container value with at least one key, or an unchanged
scalar that is neither null/undefined nor the empty string. -/
theorem cleanFields_mem (fs : List (String × JSVal)) (k : String) (v : JSVal)
    (h : (k, v) ∈ cleanFields true fs) :
    (isObjType v = true ∧ 0 < keysLength v ∧
      ∃ v0, (k, v0) ∈ fs ∧ isObjType v0 = true ∧ v = cleanObject true v0) ∨
    (isObjType v = false ∧ isNullOrUndefined v = false ∧ isEmptyStr v = false ∧ (k, v) ∈ fs) := by
  induction fs with
  | nil => simp [cleanFields] at h
  | cons p rest ih =>
    rcases p with ⟨k0, v0⟩
    by_cases h1 : isNullOrUndefined v0 = true
    · rw [cleanFields_cons_drop_null k0 v0 rest h1] at h
      rcases ih h with hc | hs
      · exact Or.inl ⟨hc.1, hc.2.1, hc.2.2.choose,
          List.mem_cons_of_mem _ hc.2.2.choose_spec.1, hc.2.2.choose_spec.2⟩
      · exact Or.inr ⟨hs.1, hs.2.1, hs.2.2.1, List.mem_cons_of_mem _ hs.2.2.2⟩
    · have h1' : isNullOrUndefined v0 = false := by simpa using h1
      by_cases h2 : isObjType v0 = true
      · by_cases h3 : (keysLength (cleanObject true v0) > 0
            || (isArrB (cleanObject true v0) && arrLen (cleanObject true v0) > 0)) = true
        · rw [cleanFields_cons_keep_container k0 v0 rest h1' h2 h3] at h
          rcases List.mem_cons.mp h with h | h
          · have hk : k = k0 := congrArg Prod.fst h
            have hv : v = cleanObject true v0 := congrArg Prod.snd h
            subst hk
            have hkeys : 0 < keysLength (cleanObject true v0) := by
              rcases Bool.or_eq_true_iff.mp h3 with hh | hh
              · simpa using hh
              · rcases Bool.and_eq_true_iff.mp hh with ⟨ha, hl⟩
                have : arrLen (cleanObject true v0) = keysLength (cleanObject true v0) := by
                  cases hc : cleanObject true v0 <;> simp_all [isArrB, arrLen, keysLength]
                rw [this] at hl
                simpa using hl
            exact Or.inl ⟨by rw [hv]; exact isObjType_cleanObject v0 h2,
              by rw [hv]; exact hkeys, v0, List.mem_cons_self _ _, h2, hv⟩
          · rcases ih h with hc | hs
            · exact Or.inl ⟨hc.1, hc.2.1, hc.2.2.choose,
                List.mem_cons_of_mem _ hc.2.2.choose_spec.1, hc.2.2.choose_spec.2⟩
            · exact Or.inr ⟨hs.1, hs.2.1, hs.2.2.1, List.mem_cons_of_mem _ hs.2.2.2⟩
        · have h3' : (keysLength (cleanObject true v0) > 0
              || (isArrB (cleanObject true v0) && arrLen (cleanObject true v0) > 0)) = false := by
            simpa using h3
          rw [cleanFields_cons_drop_container k0 v0 rest h1' h2 h3'] at h
          rcases ih h with hc | hs
          · exact Or.inl ⟨hc.1, hc.2.1, hc.2.2.choose,
              List.mem_cons_of_mem _ hc.2.2.choose_spec.1, hc.2.2.choose_spec.2⟩
          · exact Or.inr ⟨hs.1, hs.2.1, hs.2.2.1, List.mem_cons_of_mem _ hs.2.2.2⟩
      · have h2' : isObjType v0 = false := by simpa using h2
        by_cases h3 : isEmptyStr v0 = true
        · rw [cleanFields_cons_drop_empty_str k0 v0 rest h1' h2' h3] at h
          rcases ih h with hc | hs
          · exact Or.inl ⟨hc.1, hc.2.1, hc.2.2.choose,
              List.mem_cons_of_mem _ hc.2.2.choose_spec.1, hc.2.2.choose_spec.2⟩
          · exact Or.inr ⟨hs.1, hs.2.1, hs.2.2.1, List.mem_cons_of_mem _ hs.2.2.2⟩
        · have h3' : isEmptyStr v0 = false := by simpa using h3
          rw [cleanFields_cons_keep_scalar k0 v0 rest h1' h2' h3'] at h
          rcases List.mem_cons.mp h with h | h
          · have hk : k = k0 := congrArg Prod.fst h
            have hv : v = v0 := congrArg Prod.snd h
            subst hk; subst hv
            exact Or.inr ⟨h2', h1', h3', List.mem_cons_self _ _⟩
          · rcases ih h with hc | hs
            · exact Or.inl ⟨hc.1, hc.2.1, hc.2.2.choose,
                List.mem_cons_of_mem _ hc.2.2.choose_spec.1, hc.2.2.choose_spec.2⟩
            · exact Or.inr ⟨hs.1, hs.2.1, hs.2.2.1, List.mem_cons_of_mem _ hs.2.2.2⟩

/-- Every value surviving in a cleaned field list is neither `null` nor
`undefined`. -/
theorem cleanFields_mem_not_null (fs : List (String × JSVal)) (k : String) (v : JSVal)
    (h : (k, v) ∈ cleanFields true fs) : isNullOrUndefined v = false := by
  rcases cleanFields_mem fs k v h with hc | hs
  · exact isNullOrUndefined_of_objType v hc.1
  · exact hs.2.1

theorem truthy_of_objType (v : JSVal) (h : isObjType v = true) : truthy v = true := by
  cases v <;> simp_all [isObjType, truthy]

theorem getProp_obj (cf : List (String × JSVal)) (k : String) :
    getProp (JSVal.obj cf) k = Except.ok ((lookupField cf k).getD JSVal.undefined) := rfl

theorem logSectionLines_total (v : JSVal) (h : isNullOrUndefined v = false) :
    logSectionLines v =
      ([ConsoleEv.logv "Text Components:" (getPropD v "text"),
        ConsoleEv.logv "Additional Chat Log:" (getPropD v "additional_chat_log"),
        ConsoleEv.logv "Extensions:" (getPropD v "extension")], none) := by
  cases v <;> simp_all [logSectionLines, getProp, getPropD, isNullOrUndefined]

theorem sectionBlock_of_lookup_none (lbl key : String) (cf : List (String × JSVal))
    (h : lookupField cf key = none) :
    sectionBlock lbl (JSVal.obj cf) key = ([], none) := by
  simp [sectionBlock, getProp_obj, h, truthy]

theorem sectionBlock_of_lookup_some (lbl key : String) (cf : List (String × JSVal)) (v : JSVal)
    (h : lookupField cf key = some v) (hv : isObjType v = true) :
    sectionBlock lbl (JSVal.obj cf) key =
      (ConsoleEv.group lbl ::
        ([ConsoleEv.logv "Text Components:" (getPropD v "text"),
          ConsoleEv.logv "Additional Chat Log:" (getPropD v "additional_chat_log"),
          ConsoleEv.logv "Extensions:" (getPropD v "extension")] ++ [ConsoleEv.groupEnd]),
       none) := by
  have ht := truthy_of_objType v hv
  have hnn := isNullOrUndefined_of_objType v hv
  simp [sectionBlock, getProp_obj, h, ht, logSectionLines_total v hnn]

theorem keyedEntryBlocks_obj (pfx : String) (m : List (String × JSVal))
    (hvals : ∀ k w, (k, w) ∈ m → isNullOrUndefined w = false) :
    ∀ ids, (∀ id ∈ ids, id ∈ m.map Prod.fst) →
      groupLabels (keyedEntryBlocks pfx (JSVal.obj m) ids).1
          = ids.map (fun id => pfx ++ id) ∧
      (keyedEntryBlocks pfx (JSVal.obj m) ids).2 = none := by
  intro ids
  induction ids with
  | nil => intro _; exact ⟨rfl, rfl⟩
  | cons id rest ih =>
    intro hids
    rcases lookupField_of_mem_keys m id (hids id (List.mem_cons_self _ _)) with ⟨w, hw⟩
    have hwnn : isNullOrUndefined w = false := hvals id w (lookupField_mem m id w hw)
    have hgp : getPropD (JSVal.obj m) id = w := by simp [getPropD, getProp_obj, hw]
    have hrest := ih (fun i hi => hids i (List.mem_cons_of_mem _ hi))
    rcases hr : keyedEntryBlocks pfx (JSVal.obj m) rest with ⟨evs2, st⟩
    rw [hr] at hrest
    simp only [keyedEntryBlocks, hgp, logSectionLines_total w hwnn, hr]
    simp only [groupLabels, List.filterMap_cons, List.filterMap_append, groupLabelOf,
      List.map_cons] at hrest ⊢
    simp [hrest.1, hrest.2]

theorem keyedBlock_of_lookup_none (outerLabel pfx key : String) (cf : List (String × JSVal))
    (h : lookupField cf key = none) :
    keyedBlock outerLabel pfx (JSVal.obj cf) key = ([], none) := by
  simp [keyedBlock, getProp_obj, h, truthy, keysLength]

theorem keyedBlock_of_lookup_obj (outerLabel pfx key : String) (cf : List (String × JSVal))
    (m : List (String × JSVal))
    (h : lookupField cf key = some (JSVal.obj m)) (hne : 0 < m.length)
    (hvals : ∀ k w, (k, w) ∈ m → isNullOrUndefined w = false) :
    groupLabels (keyedBlock outerLabel pfx (JSVal.obj cf) key).1
        = outerLabel :: (m.map Prod.fst).map (fun id => pfx ++ id) ∧
    (keyedBlock outerLabel pfx (JSVal.obj cf) key).2 = none := by
  have hE := keyedEntryBlocks_obj pfx m hvals (m.map Prod.fst) (fun i hi => hi)
  rcases he : keyedEntryBlocks pfx (JSVal.obj m) (m.map Prod.fst) with ⟨evs, st⟩
  rw [he] at hE
  rcases hE with ⟨hE1, hE2⟩
  simp only at hE2
  subst hE2
  have hko : keysOf (JSVal.obj m) = m.map Prod.fst := rfl
  simp only [keyedBlock, getProp_obj, h, Option.getD_some, truthy, if_true, keysLength, hko, he]
  simp only [groupLabels, List.filterMap_cons, groupLabelOf, List.filterMap_append] at hE1 ⊢
  simp [hne, groupLabelOf, hE1, List.map_map]

theorem chatLogBlock_of_lookup_none (cf : List (String × JSVal))
    (h : lookupField cf "chat_log" = none) :
    chatLogBlock (JSVal.obj cf) = ([], none) := by
  simp [chatLogBlock, getProp_obj, h, truthy]

theorem chatLogBlock_of_lookup_some (cf : List (String × JSVal)) (v : JSVal)
    (h : lookupField cf "chat_log" = some v) (ht : truthy v = true) :
    chatLogBlock (JSVal.obj cf)
      = ([ConsoleEv.group "Chat Log", ConsoleEv.logv "Entries:" v, ConsoleEv.groupEnd],
         none) := by
  simp [chatLogBlock, getProp_obj, h, ht]

theorem evSeq_ok (ea : List ConsoleEv) (b : Unit → List ConsoleEv × Option String) :
    evSeq (ea, none) b = (ea ++ (b ()).1, (b ()).2) := by
  rcases hb : b () with ⟨eb, st⟩
  simp [evSeq, hb]

theorem renderVerbose_labels (cleaned : JSVal)
    (h1 : (sectionBlock "Character Prompt" cleaned "char_prompt").2 = none)
    (h2 : (sectionBlock "User Prompt" cleaned "user_prompt").2 = none)
    (h3 : (sectionBlock "World Prompt" cleaned "world_prompt").2 = none)
    (h4 : (keyedBlock "Other Characters Prompts" "Character ID: "
            cleaned "other_chars_prompt").2 = none)
    (h5 : (keyedBlock "Plugin Prompts" "Plugin ID: " cleaned "plugin_prompts").2 = none) :
    groupLabels (renderVerbose cleaned).1 =
      groupLabels (sectionBlock "Character Prompt" cleaned "char_prompt").1 ++
      groupLabels (sectionBlock "User Prompt" cleaned "user_prompt").1 ++
      groupLabels (sectionBlock "World Prompt" cleaned "world_prompt").1 ++
      groupLabels (keyedBlock "Other Characters Prompts" "Character ID: "
        cleaned "other_chars_prompt").1 ++
      groupLabels (keyedBlock "Plugin Prompts" "Plugin ID: " cleaned "plugin_prompts").1 ++
      groupLabels (chatLogBlock cleaned).1 := by
  rcases hb1 : sectionBlock "Character Prompt" cleaned "char_prompt" with ⟨e1, s1⟩
  rcases hb2 : sectionBlock "User Prompt" cleaned "user_prompt" with ⟨e2, s2⟩
  rcases hb3 : sectionBlock "World Prompt" cleaned "world_prompt" with ⟨e3, s3⟩
  rcases hb4 : keyedBlock "Other Characters Prompts" "Character ID: "
      cleaned "other_chars_prompt" with ⟨e4, s4⟩
  rcases hb5 : keyedBlock "Plugin Prompts" "Plugin ID: " cleaned "plugin_prompts" with ⟨e5, s5⟩
  rw [hb1] at h1; rw [hb2] at h2; rw [hb3] at h3; rw [hb4] at h4; rw [hb5] at h5
  simp only at h1 h2 h3 h4 h5
  subst h1; subst h2; subst h3; subst h4; subst h5
  simp [renderVerbose, hb1, hb2, hb3, hb4, hb5, evSeq_ok, groupLabels_append,
    List.append_assoc]

/-- C9 (counterexample): the present/non-empty iff does not hold for every
input in verbose mode.  With filtering disabled the sanitizer is the
identity, so `chat_log: []` stays present-but-empty after sanitization —
yet an empty array is truthy in JavaScript, so the reporter still emits the
"Chat Log" sub-group for it (lines 166-170), an empty placeholder the
claim forbids. -/
theorem verbose_empty_section_emitted :
    cleanObject false (JSVal.obj [("chat_log", JSVal.arr [])])
        = JSVal.obj [("chat_log", JSVal.arr [])] ∧
    keysLength (JSVal.arr []) = 0 ∧
    groupLabels (logPromptStruct ⟨true, true, false⟩ "T" "C"
        ⟨[[("chat_log", JSNodeRef.arr 0)]], [[]]⟩ (JSNodeRef.obj 0))
      = ["Prompt Structure (Chat ID: " ++ "C" ++ ")", "Chat Log"] :=
  ⟨rfl, rfl, rfl⟩

/-- C9 (amended): with empty-field filtering enabled, for a prompt
structure whose known top-level sections are containers (objects for the
two keyed sections), the verbose sub-groups emitted are exactly one per
known section that is present — equivalently, present with a non-empty
value — in the structure after sanitization, plus one per id present in a
keyed section after sanitization, in source order. -/
theorem verbose_sections_after_filtering (fields : List (String × JSVal))
    (hsec : ∀ k v, (k, v) ∈ fields →
      k ∈ ["char_prompt", "user_prompt", "world_prompt",
           "other_chars_prompt", "plugin_prompts", "chat_log"] → isObjType v = true)
    (hkeyed : ∀ k v, (k, v) ∈ fields →
      (k = "other_chars_prompt" ∨ k = "plugin_prompts") → ∃ m, v = JSVal.obj m) :
    groupLabels (renderVerbose (cleanObject true (JSVal.obj fields))).1 =
      specSectionLabels (cleanFields true fields) "char_prompt" "Character Prompt" ++
      specSectionLabels (cleanFields true fields) "user_prompt" "User Prompt" ++
      specSectionLabels (cleanFields true fields) "world_prompt" "World Prompt" ++
      specKeyedLabels (cleanFields true fields) "other_chars_prompt"
        "Other Characters Prompts" "Character ID: " ++
      specKeyedLabels (cleanFields true fields) "plugin_prompts"
        "Plugin Prompts" "Plugin ID: " ++
      specSectionLabels (cleanFields true fields) "chat_log" "Chat Log" := by
  rw [cleanObject_obj_def]
  set cf := cleanFields true fields with hcf
  have hsimple : ∀ key lbl,
      key ∈ ["char_prompt", "user_prompt", "world_prompt",
             "other_chars_prompt", "plugin_prompts", "chat_log"] →
      groupLabels (sectionBlock lbl (JSVal.obj cf) key).1 = specSectionLabels cf key lbl ∧
      (sectionBlock lbl (JSVal.obj cf) key).2 = none := by
    intro key lbl hkey
    rcases hl : lookupField cf key with _ | v
    · rw [sectionBlock_of_lookup_none lbl key cf hl]
      simp [specSectionLabels, hl, groupLabels]
    · have hmem := lookupField_mem cf key v hl
      rw [hcf] at hmem
      rcases cleanFields_mem fields key v hmem with hc | hs
      · rw [sectionBlock_of_lookup_some lbl key cf v hl hc.1]
        simp [specSectionLabels, hl, hc.2.1, groupLabels, groupLabelOf]
      · have hisec := hsec key v hs.2.2.2 hkey
        rw [hs.1] at hisec
        simp at hisec
  have hchat : groupLabels (chatLogBlock (JSVal.obj cf)).1
      = specSectionLabels cf "chat_log" "Chat Log" ∧
      (chatLogBlock (JSVal.obj cf)).2 = none := by
    rcases hl : lookupField cf "chat_log" with _ | v
    · rw [chatLogBlock_of_lookup_none cf hl]
      simp [specSectionLabels, hl, groupLabels]
    · have hmem := lookupField_mem cf _ v hl
      rw [hcf] at hmem
      rcases cleanFields_mem fields _ v hmem with hc | hs
      · rw [chatLogBlock_of_lookup_some cf v hl (truthy_of_objType v hc.1)]
        simp [specSectionLabels, hl, hc.2.1, groupLabels, groupLabelOf]
      · have hisec := hsec _ v hs.2.2.2 (by simp)
        rw [hs.1] at hisec
        simp at hisec
  have hkb : ∀ key outerLabel pfx,
      (key = "other_chars_prompt" ∨ key = "plugin_prompts") →
      groupLabels (keyedBlock outerLabel pfx (JSVal.obj cf) key).1
          = specKeyedLabels cf key outerLabel pfx ∧
      (keyedBlock outerLabel pfx (JSVal.obj cf) key).2 = none := by
    intro key outerLabel pfx hkey
    rcases hl : lookupField cf key with _ | v
    · rw [keyedBlock_of_lookup_none outerLabel pfx key cf hl]
      simp [specKeyedLabels, hl, groupLabels]
    · have hmem := lookupField_mem cf key v hl
      rw [hcf] at hmem
      rcases cleanFields_mem fields key v hmem with hc | hs
      · rcases hc.2.2 with ⟨v0, hv0mem, hv0obj, hveq⟩
        rcases hkeyed key v0 hv0mem hkey with ⟨m0, hm0⟩
        subst hm0
        have hveq2 : v = JSVal.obj (cleanFields true m0) := by
          rw [hveq, cleanObject_obj_def]
        have hne : 0 < (cleanFields true m0).length := by
          have hk := hc.2.1
          rw [hveq2] at hk
          simpa [keysLength] using hk
        have hl2 : lookupField cf key = some (JSVal.obj (cleanFields true m0)) := by
          rw [← hveq2]
          exact hl
        have hB := keyedBlock_of_lookup_obj outerLabel pfx key cf (cleanFields true m0) hl2 hne
          (fun k w hw => cleanFields_mem_not_null m0 k w hw)
        refine ⟨?_, hB.2⟩
        rw [hB.1]
        simp [specKeyedLabels, hl, hveq2, keysLength, hne, keysOf, List.map_map]
      · have hisec := hsec key v hs.2.2.2
          (by rcases hkey with h | h <;> subst h <;> simp)
        rw [hs.1] at hisec
        simp at hisec
  have H1 := hsimple "char_prompt" "Character Prompt" (by simp)
  have H2 := hsimple "user_prompt" "User Prompt" (by simp)
  have H3 := hsimple "world_prompt" "World Prompt" (by simp)
  have H4 := hkb "other_chars_prompt" "Other Characters Prompts" "Character ID: " (Or.inl rfl)
  have H5 := hkb "plugin_prompts" "Plugin Prompts" "Plugin ID: " (Or.inr rfl)
  rw [renderVerbose_labels (JSVal.obj cf) H1.2 H2.2 H3.2 H4.2 H5.2,
    H1.1, H2.1, H3.1, H4.1, H5.1, hchat.1]

/-- C9 witness: the amended theorem applied to a structure with a
non-empty `char_prompt` section and a non-empty `chat_log`; exactly those
two sub-groups are emitted. -/
theorem verbose_sections_after_filtering_witness :
    groupLabels (renderVerbose (cleanObject true (JSVal.obj
        [("char_prompt", JSVal.obj [("text", JSVal.str "hi")]),
         ("chat_log", JSVal.arr [JSVal.str "m"])]))).1
      = ["Character Prompt", "Chat Log"] := by
  have H := verbose_sections_after_filtering
    [("char_prompt", JSVal.obj [("text", JSVal.str "hi")]),
     ("chat_log", JSVal.arr [JSVal.str "m"])]
    (by
      intro k v hkv hk
      simp only [List.mem_cons, List.not_mem_nil, or_false] at hkv
      rcases hkv with hkv | hkv <;>
        · have hv : v = _ := congrArg Prod.snd hkv
          subst hv
          rfl)
    (by
      intro k v hkv hk
      simp only [List.mem_cons, List.not_mem_nil, or_false] at hkv
      rcases hkv with hkv | hkv <;>
        · have hk1 : k = _ := congrArg Prod.fst hkv
          subst hk1
          rcases hk with h | h <;> simp at h)
  exact H.trans rfl
